import Mathlib

/-!
Verification of the dynamic table layout of xfdashboard
(`src/libxfdashboard/dynamic-table-layout.c`).

The layout manager is embedded shallowly: child actors become records of a
visibility flag and a natural preferred size, `gfloat` values become exact
rationals, and `gint` values that are non-negative on every defined execution
path become naturals.  Executions of the C code that run into undefined
behaviour (casting an infinite or NaN `double` to `gint` after a division by
zero, or the integer remainder `i % columns` with `columns == 0`) are modelled
by `Option`, returning `none` exactly at those points.  Where the C code
divides a float by zero on a reachable path, the embedding follows IEEE-754
semantics of the original: the quotient is `+inf` (or NaN for `0/0`), and the
subsequent `MIN(quotient, numberChildren)` resolves to `numberChildren`
because both `inf < n` and `NaN < n` are false.
-/

namespace Xfdashboard

/-- Model of a Clutter child actor as seen by the layout manager: a visibility
flag and the natural preferred size reported by
`clutter_actor_get_preferred_size`. -/
structure ChildActor where
  visible : Bool
  childWidth : ℚ
  childHeight : ℚ
deriving DecidableEq, Repr

/-- Request mode of the container (`clutter_actor_get_request_mode`). -/
inductive ClutterRequestMode where
  | heightForWidth
  | widthForHeight
deriving DecidableEq, Repr

/-- The branch of step three of `_xfdashboard_dynamic_table_layout_update_layout_data`
that a call takes: both sizes unconstrained (`inWidth < 0 && inHeight < 0`),
or one of the two request modes after the overrides of step two. -/
inductive LayoutMode where
  | bothUnconstrained
  | heightForWidth
  | widthForHeight
deriving DecidableEq, Repr

/-- The private layout state rebuilt by every call to
`_xfdashboard_dynamic_table_layout_update_layout_data`.  `cellWidth` and
`cellHeight` are the final values of the local variables `largestWidth` and
`largestHeight` (overwritten with the effective cell size on the driving
axis), which feed the coordinate loops of steps four and five. -/
structure LayoutData where
  rows : ℕ
  columns : ℕ
  numberChildren : ℕ
  cellWidth : ℚ
  cellHeight : ℚ
  columnCoords : List ℚ
  rowCoords : List ℚ
deriving DecidableEq, Repr

/-- Visible children, in iteration order (step one of the update loop only
handles actors for which `clutter_actor_is_visible` holds). -/
def visibleChildren (children : List ChildActor) : List ChildActor :=
  children.filter (·.visible)

/-- Largest natural width over a child list, starting from `0.0f` as in step
one (`largestWidth=MAX(largestWidth, childWidth)`). -/
def largestWidthOf (l : List ChildActor) : ℚ :=
  l.foldl (fun a c => max a c.childWidth) 0

/-- Largest natural height over a child list, starting from `0.0f`. -/
def largestHeightOf (l : List ChildActor) : ℚ :=
  l.foldl (fun a c => max a c.childHeight) 0

/-- Steps two and three (branch selection): the request mode is overridden to
width-for-height when `inWidth < 0` and else to height-for-width when
`inHeight < 0`; the case `inWidth < 0 && inHeight < 0` is checked first in the
step-three `if` chain. -/
def layoutMode (requestMode : ClutterRequestMode) (inWidth inHeight : ℚ) :
    LayoutMode :=
  if inWidth < 0 ∧ inHeight < 0 then .bothUnconstrained
  else if (if inWidth < 0 then ClutterRequestMode.widthForHeight
           else if inHeight < 0 then ClutterRequestMode.heightForWidth
           else requestMode) = ClutterRequestMode.heightForWidth then
    .heightForWidth
  else .widthForHeight

/-- Starting value of the shrink loop:
`MIN(ceil(avail/largest), numberChildren)+1`.  When `largest` is `0.0f` the C
division yields `+inf` (or NaN for `0/0`) and the `MIN` macro
(`a < b ? a : b`) resolves to `numberChildren` since both comparisons are
false; `largestWidthOf`/`largestHeightOf` are never negative, so `largest = 0`
characterizes exactly the division-by-zero case. -/
def shrinkStart (avail largest : ℚ) (numberChildren : ℕ) : ℕ :=
  (if largest = 0 then (numberChildren : ℤ)
   else min ⌈avail / largest⌉ (numberChildren : ℤ)).toNat + 1

/-- The `do { columns--; childWidth = columns*largest + (columns-1)*spacing; }
while (columns > 1 && childWidth > avail);` loop of step three, shared by both
constrained branches.  The argument is the value of `columns` before the
decrement at the top of the body. -/
def shrinkLoop (largest spacing avail : ℚ) : ℕ → ℕ
  | 0 => 0
  | c + 1 =>
      if 1 < c ∧ avail < (c : ℚ) * largest + ((c : ℚ) - 1) * spacing then
        shrinkLoop largest spacing avail c
      else c

/-- The local variable `columns` of the height-for-width branch of step three:
candidate then shrink loop. -/
def hfwColumns (columnSpacing inWidth largestWidth : ℚ) (numberChildren : ℕ) : ℕ :=
  shrinkLoop largestWidth columnSpacing inWidth
    (shrinkStart inWidth largestWidth numberChildren)

/-- The local variable `rows` of the width-for-height branch of step three. -/
def wfhRows (rowSpacing inHeight largestHeight : ℚ) (numberChildren : ℕ) : ℕ :=
  shrinkLoop largestHeight rowSpacing inHeight
    (shrinkStart inHeight largestHeight numberChildren)

/-- Step three: number of rows and columns together with the final values of
`largestWidth`/`largestHeight`.  In a constrained branch, a driving-axis count
of `0` makes the C code divide by zero and cast the resulting infinite or NaN
`double` to `gint` (`rows=ceil(n/columns)` resp. `columns=ceil(n/rows)`),
which is undefined behaviour, modelled as `none`. -/
def computeShape (requestMode : ClutterRequestMode)
    (rowSpacing columnSpacing inWidth inHeight : ℚ)
    (numberChildren : ℕ) (largestWidth largestHeight : ℚ) :
    Option (ℕ × ℕ × ℚ × ℚ) :=
  match layoutMode requestMode inWidth inHeight with
  | .bothUnconstrained => some (1, numberChildren, largestWidth, largestHeight)
  | .heightForWidth =>
      if hfwColumns columnSpacing inWidth largestWidth numberChildren = 0 then
        none
      else
        some ((⌈(numberChildren : ℚ) /
            (hfwColumns columnSpacing inWidth largestWidth numberChildren : ℚ)⌉).toNat,
          hfwColumns columnSpacing inWidth largestWidth numberChildren,
          (⌊inWidth - ((hfwColumns columnSpacing inWidth largestWidth numberChildren : ℚ) - 1)
              * columnSpacing⌋ : ℚ) /
            (hfwColumns columnSpacing inWidth largestWidth numberChildren : ℚ),
          largestHeight)
  | .widthForHeight =>
      if wfhRows rowSpacing inHeight largestHeight numberChildren = 0 then
        none
      else
        some (wfhRows rowSpacing inHeight largestHeight numberChildren,
          (⌈(numberChildren : ℚ) /
            (wfhRows rowSpacing inHeight largestHeight numberChildren : ℚ)⌉).toNat,
          largestWidth,
          (⌊inHeight - ((wfhRows rowSpacing inHeight largestHeight numberChildren : ℚ) - 1)
              * rowSpacing⌋ : ℚ) /
            (wfhRows rowSpacing inHeight largestHeight numberChildren : ℚ))

/-- Step four: the column coordinate loop appends the running `x` once per
visible child (not once per column) and a final value after the loop; `x`
advances by `largestWidth + columnSpacing` per visible child. -/
def colCoordsGo (step : ℚ) : ℕ → ℚ → List ℚ
  | 0, x => [x]
  | k + 1, x => x :: colCoordsGo step k (x + step)

/-- Step five: the row coordinate loop over the visible children's natural
heights.  `y` starts at `-rowSpacing` and `largest` at `0.0f`; whenever the
running visible index `i` satisfies `i % columns == 0` a new row coordinate
`y + largest + rowSpacing` is appended and the per-row largest height resets.
With `columns == 0` and at least one visible child, `i % columns` is an
integer division by zero (undefined behaviour), modelled as `none`. -/
def rowCoordsGo (columns : ℕ) (rowSpacing : ℚ) :
    List ℚ → ℕ → ℚ → ℚ → Option (List ℚ)
  | [], _i, y, largest => some [y + largest]
  | h :: t, i, y, largest =>
      if columns = 0 then none
      else if i % columns = 0 then
        Option.map (fun l => (y + largest + rowSpacing) :: l)
          (rowCoordsGo columns rowSpacing t (i + 1)
            (y + largest + rowSpacing) (max 0 h))
      else rowCoordsGo columns rowSpacing t (i + 1) y (max largest h)

/-- `_xfdashboard_dynamic_table_layout_update_layout_data`: recompute the
whole layout state from the container's children and the available size
(negative meaning unconstrained, as in the C code's `< 0.0f` tests). -/
def update_layout_data (children : List ChildActor)
    (requestMode : ClutterRequestMode)
    (rowSpacing columnSpacing inWidth inHeight : ℚ) : Option LayoutData :=
  match computeShape requestMode rowSpacing columnSpacing inWidth inHeight
      (visibleChildren children).length
      (largestWidthOf (visibleChildren children))
      (largestHeightOf (visibleChildren children)) with
  | none => none
  | some (rows, columns, cellW, cellH) =>
      (rowCoordsGo columns rowSpacing
          ((visibleChildren children).map (·.childHeight)) 0
          (-rowSpacing) 0).map fun rcs =>
        { rows := rows
          columns := columns
          numberChildren := (visibleChildren children).length
          cellWidth := cellW
          cellHeight := cellH
          columnCoords := colCoordsGo (cellW + columnSpacing)
            (visibleChildren children).length 0
          rowCoords := rcs }

/-- `_xfdashboard_dynamic_table_layout_get_preferred_width`: recompute with
`inWidth = -1.0f` and `inHeight = inForHeight`, then return
`((columns-1)*columnSpacing, columnCoords[columns])` when `columns > 0` and
the defaults `(0, 0)` otherwise. -/
def get_preferred_width (children : List ChildActor)
    (requestMode : ClutterRequestMode)
    (rowSpacing columnSpacing inForHeight : ℚ) : Option (ℚ × ℚ) :=
  match update_layout_data children requestMode rowSpacing columnSpacing
      (-1) inForHeight with
  | none => none
  | some st =>
      if 0 < st.columns then
        some (((st.columns : ℚ) - 1) * columnSpacing,
          st.columnCoords.getD st.columns 0)
      else some (0, 0)

/-- Allocation rectangle, as a `ClutterActorBox` with corners
`(x1, y1)`-`(x2, y2)`. -/
structure ActorBox where
  x1 : ℚ
  y1 : ℚ
  x2 : ℚ
  y2 : ℚ
deriving DecidableEq, Repr

/-- The `childAllocation` computed for the visible child with running index
`i`: `column = i % columns`, `row = i / columns`, and the box runs from
`(columnCoords[column], rowCoords[row])` to
`(columnCoords[column+1] - columnSpacing, rowCoords[row+1] - rowSpacing)`. -/
def cellRect (st : LayoutData) (rowSpacing columnSpacing : ℚ) (i : ℕ) :
    ActorBox :=
  { x1 := st.columnCoords.getD (i % st.columns) 0
    y1 := st.rowCoords.getD (i / st.columns) 0
    x2 := st.columnCoords.getD (i % st.columns + 1) 0 - columnSpacing
    y2 := st.rowCoords.getD (i / st.columns + 1) 0 - rowSpacing }

/-- Allocation loop of `_xfdashboard_dynamic_table_layout_allocate`: each
visible child with running index `i` is allocated `cellRect st _ _ i`.  The
resulting list is aligned with the child list: `some box` for a visible
child, `none` (no allocation) for an invisible one.  `i % columns` with
`columns == 0` is an integer division by zero (undefined behaviour), modelled
as `none` overall. -/
def allocGo (st : LayoutData) (rowSpacing columnSpacing : ℚ) :
    List ChildActor → ℕ → Option (List (Option ActorBox))
  | [], _i => some []
  | c :: t, i =>
      if c.visible then
        if st.columns = 0 then none
        else
          Option.map (fun l => some (cellRect st rowSpacing columnSpacing i) :: l)
            (allocGo st rowSpacing columnSpacing t (i + 1))
      else Option.map (fun l => none :: l)
        (allocGo st rowSpacing columnSpacing t i)

/-- `_xfdashboard_dynamic_table_layout_allocate`: recompute with the box's
width and height (`clutter_actor_box_get_width/height`), then assign one
rectangle per visible child. -/
def allocate (children : List ChildActor) (requestMode : ClutterRequestMode)
    (rowSpacing columnSpacing : ℚ) (inAllocation : ActorBox) :
    Option (List (Option ActorBox)) :=
  match update_layout_data children requestMode rowSpacing columnSpacing
      (inAllocation.x2 - inAllocation.x1)
      (inAllocation.y2 - inAllocation.y1) with
  | none => none
  | some st => allocGo st rowSpacing columnSpacing children 0

/-- Property / signal emissions of the spacing setters. -/
inductive LayoutSignal where
  | rowSpacingChanged
  | columnSpacingChanged
  | layoutChanged
deriving DecidableEq, Repr

/-- The part of the private state the spacing setters touch. -/
structure SpacingState where
  rowSpacing : ℚ
  columnSpacing : ℚ
deriving DecidableEq, Repr

/-- `xfdashboard_dynamic_table_layout_set_spacing`: guarded by
`g_return_if_fail(inSpacing >= 0.0f)`; when either stored spacing differs it
sets both, notifies both properties and calls
`clutter_layout_manager_layout_changed` once. -/
def set_spacing (st : SpacingState) (inSpacing : ℚ) :
    SpacingState × List LayoutSignal :=
  if ¬ 0 ≤ inSpacing then (st, [])
  else if st.rowSpacing ≠ inSpacing ∨ st.columnSpacing ≠ inSpacing then
    (⟨inSpacing, inSpacing⟩,
      [.rowSpacingChanged, .columnSpacingChanged, .layoutChanged])
  else (st, [])

/-- `xfdashboard_dynamic_table_layout_set_row_spacing`. -/
def set_row_spacing (st : SpacingState) (inSpacing : ℚ) :
    SpacingState × List LayoutSignal :=
  if ¬ 0 ≤ inSpacing then (st, [])
  else if st.rowSpacing ≠ inSpacing then
    (⟨inSpacing, st.columnSpacing⟩, [.rowSpacingChanged, .layoutChanged])
  else (st, [])

/-- `xfdashboard_dynamic_table_layout_set_column_spacing`. -/
def set_column_spacing (st : SpacingState) (inSpacing : ℚ) :
    SpacingState × List LayoutSignal :=
  if ¬ 0 ≤ inSpacing then (st, [])
  else if st.columnSpacing ≠ inSpacing then
    (⟨st.rowSpacing, inSpacing⟩, [.columnSpacingChanged, .layoutChanged])
  else (st, [])

/-- Number of iterations of the step-five loop at which a new row coordinate
is appended (`i % columns == 0`), for `m` visible children starting at
running index `i`.  Proof-side counter for the length of `rowCoordsGo`. -/
def rowStarts (columns : ℕ) : ℕ → ℕ → ℕ
  | _i, 0 => 0
  | i, m + 1 => (if i % columns = 0 then 1 else 0) + rowStarts columns (i + 1) m

/-- Running index of a child inside the visible-children iteration: the number
of visible children strictly before position `j` of the child list. -/
def visibleRank (children : List ChildActor) (j : ℕ) : ℕ :=
  ((children.take j).filter (·.visible)).length

section Helpers

theorem le_foldl_max (f : ChildActor → ℚ) :
    ∀ (l : List ChildActor) (x : ℚ), x ≤ l.foldl (fun a c => max a (f c)) x := by
  intro l
  induction l with
  | nil => intro x; exact le_refl x
  | cons c t ih =>
      intro x
      exact le_trans (le_max_left x (f c)) (ih (max x (f c)))

theorem largestWidthOf_nonneg (l : List ChildActor) : 0 ≤ largestWidthOf l :=
  le_foldl_max (·.childWidth) l 0

theorem largestHeightOf_nonneg (l : List ChildActor) : 0 ≤ largestHeightOf l :=
  le_foldl_max (·.childHeight) l 0

theorem shrinkLoop_le (largest spacing avail : ℚ) :
    ∀ m, shrinkLoop largest spacing avail m ≤ m - 1 := by
  intro m
  induction m with
  | zero => simp [shrinkLoop]
  | succ c ih =>
      simp only [shrinkLoop]
      by_cases h : 1 < c ∧ avail < (c : ℚ) * largest + ((c : ℚ) - 1) * spacing
      · simp only [if_pos h]
        omega
      · simp only [if_neg h]
        omega

theorem shrinkLoop_pos (largest spacing avail : ℚ) :
    ∀ m, 2 ≤ m → 1 ≤ shrinkLoop largest spacing avail m := by
  intro m
  induction m with
  | zero => omega
  | succ c ih =>
      intro hm
      simp only [shrinkLoop]
      by_cases h : 1 < c ∧ avail < (c : ℚ) * largest + ((c : ℚ) - 1) * spacing
      · simp only [if_pos h]
        exact ih (by omega)
      · simp only [if_neg h]
        omega

theorem shrinkLoop_exit (largest spacing avail : ℚ) :
    ∀ m, 1 < shrinkLoop largest spacing avail m →
      (shrinkLoop largest spacing avail m : ℚ) * largest +
        ((shrinkLoop largest spacing avail m : ℚ) - 1) * spacing ≤ avail := by
  intro m
  induction m with
  | zero => simp [shrinkLoop]
  | succ c ih =>
      simp only [shrinkLoop]
      by_cases h : 1 < c ∧ avail < (c : ℚ) * largest + ((c : ℚ) - 1) * spacing
      · simp only [if_pos h]
        exact ih
      · simp only [if_neg h]
        intro hgt
        rcases not_and_or.mp h with h1 | h2
        · omega
        · exact le_of_not_lt h2

theorem shrinkStart_le (avail largest : ℚ) (n : ℕ) :
    shrinkStart avail largest n ≤ n + 1 := by
  unfold shrinkStart
  by_cases h : largest = 0
  · simp [h]
  · simp only [if_neg h]
    have : (min ⌈avail / largest⌉ (n : ℤ)).toNat ≤ n := by
      rw [Int.toNat_le]
      exact min_le_right _ _
    omega

theorem ceilq_nonneg (n c : ℕ) : 0 ≤ (⌈(n : ℚ) / (c : ℚ)⌉ : ℤ) :=
  Int.ceil_nonneg (by positivity)

theorem ceilq_pos (n c : ℕ) (hn : 1 ≤ n) (hc : 1 ≤ c) :
    1 ≤ (⌈(n : ℚ) / (c : ℚ)⌉).toNat := by
  have h : (0 : ℤ) < ⌈(n : ℚ) / (c : ℚ)⌉ := by
    rw [Int.ceil_pos]
    apply div_pos
    · exact_mod_cast hn
    · exact_mod_cast hc
  omega

theorem ceilq_le (n c : ℕ) (hc : 1 ≤ c) : (⌈(n : ℚ) / (c : ℚ)⌉).toNat ≤ n := by
  have h : (⌈(n : ℚ) / (c : ℚ)⌉ : ℤ) ≤ (n : ℤ) := by
    rw [Int.ceil_le]
    push_cast
    apply div_le_self
    · positivity
    · exact_mod_cast hc
  omega

theorem le_ceilq_mul (n c : ℕ) (hc : 1 ≤ c) :
    n ≤ (⌈(n : ℚ) / (c : ℚ)⌉).toNat * c := by
  have hc0 : (0 : ℚ) < (c : ℚ) := by exact_mod_cast hc
  have h1 : (n : ℚ) / (c : ℚ) ≤ (⌈(n : ℚ) / (c : ℚ)⌉ : ℚ) := Int.le_ceil _
  have h2 : (n : ℚ) ≤ (⌈(n : ℚ) / (c : ℚ)⌉ : ℚ) * (c : ℚ) :=
    (div_le_iff₀ hc0).mp h1
  have h3 := ceilq_nonneg n c
  have h4 : ((⌈(n : ℚ) / (c : ℚ)⌉.toNat : ℤ) : ℚ) = ((⌈(n : ℚ) / (c : ℚ)⌉ : ℤ) : ℚ) := by
    exact_mod_cast congrArg (fun z => ((z : ℤ) : ℚ)) (Int.toNat_of_nonneg h3)
  rw [← h4] at h2
  exact_mod_cast h2

theorem ceilq_sub_one_mul_lt (n c : ℕ) (hc : 1 ≤ c) (hn : 1 ≤ n) :
    ((⌈(n : ℚ) / (c : ℚ)⌉).toNat - 1) * c < n := by
  have hc0 : (0 : ℚ) < (c : ℚ) := by exact_mod_cast hc
  have h1 : (⌈(n : ℚ) / (c : ℚ)⌉ : ℚ) < (n : ℚ) / (c : ℚ) + 1 :=
    Int.ceil_lt_add_one _
  have h1' : (⌈(n : ℚ) / (c : ℚ)⌉ : ℚ) - 1 < (n : ℚ) / (c : ℚ) := by linarith
  have h2 : ((⌈(n : ℚ) / (c : ℚ)⌉ : ℚ) - 1) * (c : ℚ) < (n : ℚ) :=
    (lt_div_iff₀ hc0).mp h1'
  have hk := ceilq_pos n c hn hc
  have h4 : ((⌈(n : ℚ) / (c : ℚ)⌉.toNat : ℤ) : ℚ) = ((⌈(n : ℚ) / (c : ℚ)⌉ : ℤ) : ℚ) := by
    exact_mod_cast congrArg (fun z => ((z : ℤ) : ℚ)) (Int.toNat_of_nonneg (ceilq_nonneg n c))
  rw [← h4] at h2
  have h5 : (((⌈(n : ℚ) / (c : ℚ)⌉.toNat - 1 : ℕ) : ℚ)) * (c : ℚ) < (n : ℚ) := by
    have hcast : (((⌈(n : ℚ) / (c : ℚ)⌉.toNat - 1 : ℕ) : ℚ)) =
        ((⌈(n : ℚ) / (c : ℚ)⌉.toNat : ℚ) - 1) := by
      have h6 : 1 ≤ (⌈(n : ℚ) / (c : ℚ)⌉).toNat := hk
      push_cast [h6]
      ring
    rw [hcast]
    exact_mod_cast h2
  exact_mod_cast h5

theorem colCoordsGo_length (step : ℚ) :
    ∀ (k : ℕ) (x : ℚ), (colCoordsGo step k x).length = k + 1 := by
  intro k
  induction k with
  | zero => intro x; rfl
  | succ k ih => intro x; simp [colCoordsGo, ih]

theorem colCoordsGo_head (step : ℚ) (k : ℕ) (x : ℚ) :
    (colCoordsGo step k x).head? = some x := by
  cases k <;> rfl

theorem colCoordsGo_getD (step : ℚ) :
    ∀ (k j : ℕ) (x : ℚ), j ≤ k → (colCoordsGo step k x).getD j 0 = x + j * step := by
  intro k
  induction k with
  | zero =>
      intro j x hj
      have hj0 : j = 0 := by omega
      subst hj0
      simp [colCoordsGo]
  | succ k ih =>
      intro j x hj
      cases j with
      | zero => simp [colCoordsGo]
      | succ j2 =>
          have h2 := ih j2 (x + step) (by omega)
          simp only [colCoordsGo, List.getD_cons_succ, h2]
          push_cast
          ring

theorem colCoordsGo_chain (step : ℚ) (hs : 0 ≤ step) :
    ∀ (k : ℕ) (x : ℚ), List.Chain' (· ≤ ·) (colCoordsGo step k x) := by
  intro k
  induction k with
  | zero => intro x; exact List.chain'_singleton x
  | succ k ih =>
      intro x
      show List.Chain' (· ≤ ·) (x :: colCoordsGo step k (x + step))
      rw [List.chain'_cons']
      constructor
      · intro y hy
        rw [colCoordsGo_head] at hy
        cases hy
        linarith
      · exact ih (x + step)

theorem rowCoordsGo_some (columns : ℕ) (rowSpacing : ℚ) (hcols : 1 ≤ columns) :
    ∀ (hs : List ℚ) (i : ℕ) (y lh : ℚ), ∃ l,
      rowCoordsGo columns rowSpacing hs i y lh = some l ∧
      l.length = rowStarts columns i hs.length + 1 := by
  intro hs
  induction hs with
  | nil =>
      intro i y lh
      exact ⟨[y + lh], rfl, by simp [rowStarts]⟩
  | cons h t ih =>
      intro i y lh
      have hc0 : ¬ columns = 0 := by omega
      by_cases hm : i % columns = 0
      · obtain ⟨l', hl', hlen'⟩ := ih (i + 1) (y + lh + rowSpacing) (max 0 h)
        refine ⟨(y + lh + rowSpacing) :: l', ?_, ?_⟩
        · simp [rowCoordsGo, hc0, hm, hl']
        · simp [rowStarts, hm, hlen']
          omega
      · obtain ⟨l', hl', hlen'⟩ := ih (i + 1) y (max lh h)
        refine ⟨l', ?_, ?_⟩
        · simp [rowCoordsGo, hc0, hm, hl']
        · simp [rowStarts, hm, hlen']

theorem rowCoordsGo_chain (columns : ℕ) (rowSpacing : ℚ) (hrs : 0 ≤ rowSpacing) :
    ∀ (hs : List ℚ) (i : ℕ) (y lh : ℚ) (l : List ℚ), 0 ≤ lh →
      rowCoordsGo columns rowSpacing hs i y lh = some l →
      ∃ hd tl, l = hd :: tl ∧ y + lh ≤ hd ∧ List.Chain' (· ≤ ·) l := by
  intro hs
  induction hs with
  | nil =>
      intro i y lh l hlh hl
      simp only [rowCoordsGo, Option.some_inj] at hl
      exact ⟨y + lh, [], hl.symm, le_refl _, hl ▸ List.chain'_singleton _⟩
  | cons h t ih =>
      intro i y lh l hlh hl
      simp only [rowCoordsGo] at hl
      by_cases hc0 : columns = 0
      · simp [hc0] at hl
      rw [if_neg hc0] at hl
      by_cases hm : i % columns = 0
      · rw [if_pos hm] at hl
        cases hrec : rowCoordsGo columns rowSpacing t (i + 1)
            (y + lh + rowSpacing) (max 0 h) with
        | none => rw [hrec] at hl; simp at hl
        | some l' =>
            rw [hrec] at hl
            simp only [Option.map_some', Option.some_inj] at hl
            obtain ⟨hd', tl', hl'e, hhd', hch'⟩ :=
              ih (i + 1) (y + lh + rowSpacing) (max 0 h) l' (le_max_left 0 h) hrec
            refine ⟨y + lh + rowSpacing, l', hl.symm, by linarith, ?_⟩
            rw [← hl, List.chain'_cons']
            refine ⟨?_, hch'⟩
            intro z hz
            rw [hl'e] at hz
            simp only [List.head?_cons, Option.mem_def, Option.some_inj] at hz
            subst hz
            have hmax : (0 : ℚ) ≤ max 0 h := le_max_left 0 h
            linarith [hhd']
      · rw [if_neg hm] at hl
        obtain ⟨hd, tl, hle, hhd, hch⟩ :=
          ih (i + 1) y (max lh h) l (le_trans hlh (le_max_left lh h)) hl
        refine ⟨hd, tl, hle, ?_, hch⟩
        have : y + lh ≤ y + max lh h := by
          have := le_max_left lh h
          linarith
        linarith

theorem rowStarts_eq (c : ℕ) (hc : 1 ≤ c) :
    ∀ (m i : ℕ), rowStarts c i m = (m + c - 1 - (c - i % c) % c) / c := by
  intro m
  induction m with
  | zero =>
      intro i
      simp only [rowStarts]
      rw [Nat.div_eq_of_lt (by omega)]
  | succ m ih =>
      intro i
      simp only [rowStarts]
      rw [ih (i + 1)]
      have hic : i % c < c := Nat.mod_lt _ (by omega)
      have hi1 : (i + 1) % c = (i % c + 1) % c := by
        conv_lhs => rw [← Nat.mod_add_mod]
      by_cases hr : i % c = 0
      · have hd : (c - i % c) % c = 0 := by rw [hr, Nat.sub_zero, Nat.mod_self]
        by_cases hc1 : c = 1
        · subst hc1
          simp only [Nat.mod_one, Nat.sub_zero, Nat.div_one, if_true]
          omega
        · have hc2 : 2 ≤ c := by omega
          have hi2 : (i + 1) % c = 1 := by
            rw [hi1, hr]
            exact Nat.mod_eq_of_lt (by omega)
          have hd' : (c - (i + 1) % c) % c = c - 1 := by
            rw [hi2]
            exact Nat.mod_eq_of_lt (by omega)
          rw [hd, hd', if_pos hr]
          have e1 : m + c - 1 - (c - 1) = m := by omega
          have e2 : m + 1 + c - 1 - 0 = m + c := by omega
          rw [e1, e2, Nat.add_div_right _ (by omega)]
          exact Nat.add_comm 1 (m / c)
      · have hr1 : 1 ≤ i % c := Nat.pos_of_ne_zero hr
        have hd : (c - i % c) % c = c - i % c := Nat.mod_eq_of_lt (by omega)
        rw [if_neg hr, hd]
        by_cases hrc1 : i % c + 1 = c
        · have hi2 : (i + 1) % c = 0 := by
            rw [hi1, hrc1, Nat.mod_self]
          have hd' : (c - (i + 1) % c) % c = 0 := by
            rw [hi2, Nat.sub_zero, Nat.mod_self]
          rw [hd']
          have e3 : m + c - 1 - 0 = m + 1 + c - 1 - (c - i % c) := by omega
          rw [e3]
          exact Nat.zero_add _
        · have hr2 : i % c + 1 < c := by omega
          have hi2 : (i + 1) % c = i % c + 1 := by
            rw [hi1]
            exact Nat.mod_eq_of_lt hr2
          have hd' : (c - (i + 1) % c) % c = c - (i % c + 1) := by
            rw [hi2]
            exact Nat.mod_eq_of_lt (by omega)
          rw [hd']
          have e4 : m + c - 1 - (c - (i % c + 1)) = m + i % c := by omega
          have e5 : m + 1 + c - 1 - (c - i % c) = m + i % c := by omega
          rw [e4, e5]
          exact Nat.zero_add _

theorem rowStarts_zero (c : ℕ) (hc : 1 ≤ c) (n : ℕ) :
    rowStarts c 0 n = (n + c - 1) / c := by
  rw [rowStarts_eq c hc n 0]
  have h1 : (c - 0 % c) % c = 0 := by
    simp [Nat.mod_self]
  rw [h1, Nat.sub_zero]

theorem layoutMode_hfw_width_nonneg {rm : ClutterRequestMode} {w h : ℚ}
    (hm : layoutMode rm w h = .heightForWidth) : 0 ≤ w := by
  by_contra hw
  push_neg at hw
  unfold layoutMode at hm
  by_cases hb : w < 0 ∧ h < 0
  · rw [if_pos hb] at hm
    simp at hm
  · rw [if_neg hb, if_pos hw] at hm
    simp at hm

theorem layoutMode_wfh_height_nonneg {rm : ClutterRequestMode} {w h : ℚ}
    (hm : layoutMode rm w h = .widthForHeight) : 0 ≤ h := by
  by_contra hh
  push_neg at hh
  unfold layoutMode at hm
  by_cases hb : w < 0 ∧ h < 0
  · rw [if_pos hb] at hm
    simp at hm
  · have hw : ¬ w < 0 := fun hw' => hb ⟨hw', hh⟩
    rw [if_neg hb, if_neg hw, if_pos hh] at hm
    simp at hm

theorem computeShape_some {rm : ClutterRequestMode} {rs cs w h : ℚ} {n : ℕ}
    {lw lh : ℚ} {r c : ℕ} {cw ch : ℚ}
    (hsh : computeShape rm rs cs w h n lw lh = some (r, c, cw, ch)) :
    (layoutMode rm w h = .bothUnconstrained ∧
      r = 1 ∧ c = n ∧ cw = lw ∧ ch = lh) ∨
    (layoutMode rm w h = .heightForWidth ∧
      c = hfwColumns cs w lw n ∧ 1 ≤ c ∧
      cw = ((⌊w - ((c : ℚ) - 1) * cs⌋ : ℤ) : ℚ) / (c : ℚ) ∧
      r = (⌈(n : ℚ) / (c : ℚ)⌉).toNat ∧ ch = lh) ∨
    (layoutMode rm w h = .widthForHeight ∧
      r = wfhRows rs h lh n ∧ 1 ≤ r ∧
      ch = ((⌊h - ((r : ℚ) - 1) * rs⌋ : ℤ) : ℚ) / (r : ℚ) ∧
      c = (⌈(n : ℚ) / (r : ℚ)⌉).toNat ∧ cw = lw) := by
  unfold computeShape at hsh
  cases hmode : layoutMode rm w h with
  | bothUnconstrained =>
      rw [hmode] at hsh
      simp only [Option.some_inj, Prod.mk.injEq] at hsh
      exact Or.inl ⟨rfl, hsh.1.symm, hsh.2.1.symm, hsh.2.2.1.symm, hsh.2.2.2.symm⟩
  | heightForWidth =>
      rw [hmode] at hsh
      by_cases hz : hfwColumns cs w lw n = 0
      · rw [if_pos hz] at hsh
        simp at hsh
      · rw [if_neg hz] at hsh
        simp only [Option.some_inj, Prod.mk.injEq] at hsh
        obtain ⟨h1, h2, h3, h4⟩ := hsh
        refine Or.inr (Or.inl ⟨rfl, h2.symm, by omega, ?_, ?_, h4.symm⟩)
        · rw [h2] at h3
          exact h3.symm
        · rw [h2] at h1
          exact h1.symm
  | widthForHeight =>
      rw [hmode] at hsh
      by_cases hz : wfhRows rs h lh n = 0
      · rw [if_pos hz] at hsh
        simp at hsh
      · rw [if_neg hz] at hsh
        simp only [Option.some_inj, Prod.mk.injEq] at hsh
        obtain ⟨h1, h2, h3, h4⟩ := hsh
        refine Or.inr (Or.inr ⟨rfl, h1.symm, by omega, ?_, ?_, h3.symm⟩)
        · rw [h1] at h4
          exact h4.symm
        · rw [h1] at h2
          exact h2.symm

theorem update_some {children : List ChildActor} {rm : ClutterRequestMode}
    {rs cs w h : ℚ} {st : LayoutData}
    (hu : update_layout_data children rm rs cs w h = some st) :
    computeShape rm rs cs w h (visibleChildren children).length
        (largestWidthOf (visibleChildren children))
        (largestHeightOf (visibleChildren children)) =
      some (st.rows, st.columns, st.cellWidth, st.cellHeight) ∧
    st.numberChildren = (visibleChildren children).length ∧
    st.columnCoords =
      colCoordsGo (st.cellWidth + cs) (visibleChildren children).length 0 ∧
    rowCoordsGo st.columns rs ((visibleChildren children).map (·.childHeight))
        0 (-rs) 0 = some st.rowCoords := by
  unfold update_layout_data at hu
  cases hcs : computeShape rm rs cs w h (visibleChildren children).length
      (largestWidthOf (visibleChildren children))
      (largestHeightOf (visibleChildren children)) with
  | none => rw [hcs] at hu; simp at hu
  | some q =>
      obtain ⟨r, c, cw, ch⟩ := q
      rw [hcs] at hu
      dsimp only at hu
      cases hrc : rowCoordsGo c rs ((visibleChildren children).map (·.childHeight))
          0 (-rs) 0 with
      | none => rw [hrc] at hu; simp at hu
      | some rcs =>
          rw [hrc] at hu
          simp only [Option.map_some', Option.some_inj] at hu
          subst hu
          exact ⟨rfl, rfl, rfl, hrc⟩

theorem shrinkLoop_one (largest spacing avail : ℚ) :
    shrinkLoop largest spacing avail 1 = 0 := by
  rw [shrinkLoop]
  simp

theorem shrinkStart_zero_zero (avail : ℚ) : shrinkStart avail 0 0 = 1 := by
  simp [shrinkStart]

theorem success_constrained_n_pos {children : List ChildActor}
    {rm : ClutterRequestMode} {rs cs w h : ℚ} {st : LayoutData}
    (hu : update_layout_data children rm rs cs w h = some st)
    (hmode : layoutMode rm w h ≠ .bothUnconstrained) :
    1 ≤ (visibleChildren children).length := by
  obtain ⟨hcs, -, -, -⟩ := update_some hu
  by_contra hn
  push_neg at hn
  have h0 : (visibleChildren children).length = 0 := by omega
  have hnil : visibleChildren children = [] := List.length_eq_zero.mp h0
  rcases computeShape_some hcs with ⟨hm, -⟩ | ⟨hm, hc, hc1, -⟩ | ⟨hm, hr, hr1, -⟩
  · exact hmode hm
  · rw [h0, hnil] at hc
    have hlw : largestWidthOf [] = 0 := rfl
    rw [hlw, hfwColumns, shrinkStart_zero_zero, shrinkLoop_one] at hc
    omega
  · rw [h0, hnil] at hr
    have hlh : largestHeightOf [] = 0 := rfl
    rw [hlh, wfhRows, shrinkStart_zero_zero, shrinkLoop_one] at hr
    omega

theorem success_columns_le {children : List ChildActor}
    {rm : ClutterRequestMode} {rs cs w h : ℚ} {st : LayoutData}
    (hu : update_layout_data children rm rs cs w h = some st) :
    st.columns ≤ (visibleChildren children).length := by
  obtain ⟨hcs, -, -, -⟩ := update_some hu
  rcases computeShape_some hcs with ⟨-, -, hc, -⟩ | ⟨-, hc, hc1, -⟩ |
      ⟨-, -, hr1, -, hc, -⟩
  · omega
  · rw [hc, hfwColumns]
    have h1 := shrinkLoop_le (largestWidthOf (visibleChildren children)) cs w
      (shrinkStart w (largestWidthOf (visibleChildren children))
        (visibleChildren children).length)
    have h2 := shrinkStart_le w (largestWidthOf (visibleChildren children))
      (visibleChildren children).length
    omega
  · rw [hc]
    exact ceilq_le _ _ hr1

theorem success_columns_pos {children : List ChildActor}
    {rm : ClutterRequestMode} {rs cs w h : ℚ} {st : LayoutData}
    (hu : update_layout_data children rm rs cs w h = some st)
    (hn : 1 ≤ (visibleChildren children).length) :
    1 ≤ st.columns := by
  obtain ⟨hcs, -, -, -⟩ := update_some hu
  rcases computeShape_some hcs with ⟨-, -, hc, -⟩ | ⟨-, -, hc1, -⟩ |
      ⟨-, -, hr1, -, hc, -⟩
  · omega
  · exact hc1
  · rw [hc]
    exact ceilq_pos _ _ hn hr1

theorem success_rows_pos {children : List ChildActor}
    {rm : ClutterRequestMode} {rs cs w h : ℚ} {st : LayoutData}
    (hu : update_layout_data children rm rs cs w h = some st)
    (hn : 1 ≤ (visibleChildren children).length) :
    1 ≤ st.rows := by
  obtain ⟨hcs, -, -, -⟩ := update_some hu
  rcases computeShape_some hcs with ⟨-, hr, -⟩ | ⟨-, -, hc1, -, hr, -⟩ |
      ⟨-, -, hr1, -⟩
  · omega
  · rw [hr]
    exact ceilq_pos _ _ hn hc1
  · exact hr1

theorem success_cellWidth_nonneg {children : List ChildActor}
    {rm : ClutterRequestMode} {rs cs w h : ℚ} {st : LayoutData}
    (hu : update_layout_data children rm rs cs w h = some st) :
    0 ≤ st.cellWidth := by
  obtain ⟨hcsh, -, -, -⟩ := update_some hu
  have hlw : 0 ≤ largestWidthOf (visibleChildren children) :=
    largestWidthOf_nonneg _
  rcases computeShape_some hcsh with ⟨-, -, -, hcw, -⟩ | ⟨hm, hc, hc1, hcw, -⟩ |
      ⟨-, -, -, -, -, hcw⟩
  · rw [hcw]; exact hlw
  · have hw : 0 ≤ w := layoutMode_hfw_width_nonneg hm
    have hnum : 0 ≤ w - ((st.columns : ℚ) - 1) * cs := by
      by_cases hc2 : 1 < st.columns
      · have hx := shrinkLoop_exit (largestWidthOf (visibleChildren children)) cs w
          (shrinkStart w (largestWidthOf (visibleChildren children))
            (visibleChildren children).length) (by rw [← hfwColumns, ← hc]; exact hc2)
        rw [← hfwColumns, ← hc] at hx
        have hcq : (0 : ℚ) ≤ (st.columns : ℚ) := by positivity
        nlinarith
      · have hc3 : st.columns = 1 := by omega
        rw [hc3]
        simp
        linarith
    rw [hcw]
    apply div_nonneg
    · have h1 : (0 : ℤ) ≤ ⌊w - ((st.columns : ℚ) - 1) * cs⌋ :=
        Int.le_floor.mpr (by push_cast; linarith)
      exact_mod_cast h1
    · positivity
  · rw [hcw]; exact hlw

theorem layoutMode_bothU {rm : ClutterRequestMode} {w h : ℚ}
    (hm : layoutMode rm w h = .bothUnconstrained) : w < 0 ∧ h < 0 := by
  by_contra hb
  unfold layoutMode at hm
  rw [if_neg hb] at hm
  by_cases hi : (if w < 0 then ClutterRequestMode.widthForHeight
      else if h < 0 then ClutterRequestMode.heightForWidth else rm) =
      ClutterRequestMode.heightForWidth
  · rw [if_pos hi] at hm
    simp at hm
  · rw [if_neg hi] at hm
    simp at hm

theorem layoutMode_wfh_of (rm : ClutterRequestMode) {w h : ℚ}
    (hw : w < 0) (hh : ¬ h < 0) : layoutMode rm w h = .widthForHeight := by
  unfold layoutMode
  rw [if_neg (by tauto)]
  have hi : (if w < 0 then ClutterRequestMode.widthForHeight
      else if h < 0 then ClutterRequestMode.heightForWidth else rm) =
      ClutterRequestMode.widthForHeight := if_pos hw
  rw [hi, if_neg (fun hx => ClutterRequestMode.noConfusion hx)]

theorem layoutMode_hfw_of (rm : ClutterRequestMode) {w h : ℚ}
    (hw : ¬ w < 0) (hh : h < 0) : layoutMode rm w h = .heightForWidth := by
  unfold layoutMode
  rw [if_neg (by tauto)]
  have hi : (if w < 0 then ClutterRequestMode.widthForHeight
      else if h < 0 then ClutterRequestMode.heightForWidth else rm) =
      ClutterRequestMode.heightForWidth := by
    rw [if_neg hw, if_pos hh]
  rw [hi, if_pos rfl]

theorem shrinkLoop_zero_largest (spacing avail : ℚ) (n : ℕ) (hn : 1 ≤ n)
    (hav : ¬ avail < ((n : ℚ) - 1) * spacing) :
    shrinkLoop 0 spacing avail (n + 1) = n := by
  cases n with
  | zero => omega
  | succ m =>
      rw [shrinkLoop, if_neg]
      rintro ⟨-, habs⟩
      apply hav
      push_cast at habs ⊢
      linarith

theorem shrinkLoop_zero_largest_lt (spacing avail : ℚ) (n : ℕ) (h1 : 1 < n)
    (hav : avail < ((n : ℚ) - 1) * spacing) :
    shrinkLoop 0 spacing avail (n + 1) < n := by
  cases n with
  | zero => omega
  | succ m =>
      rw [shrinkLoop, if_pos]
      · have := shrinkLoop_le 0 spacing avail (m + 1)
        omega
      · refine ⟨by omega, ?_⟩
        push_cast at hav ⊢
        linarith

theorem boundary_at_columns {children : List ChildActor}
    {rm : ClutterRequestMode} {rs cs w h : ℚ} {st : LayoutData}
    (hu : update_layout_data children rm rs cs w h = some st) :
    st.columnCoords.getD st.columns 0 = (st.columns : ℚ) * (st.cellWidth + cs) := by
  obtain ⟨-, -, hcol, -⟩ := update_some hu
  have hle := success_columns_le hu
  rw [hcol, colCoordsGo_getD _ _ _ 0 hle]
  norm_num

theorem visibleRank_zero (children : List ChildActor) :
    visibleRank children 0 = 0 := rfl

theorem visibleRank_cons (c : ChildActor) (t : List ChildActor) (j : ℕ) :
    visibleRank (c :: t) (j + 1) =
      (if c.visible then 1 else 0) + visibleRank t j := by
  unfold visibleRank
  rw [List.take_succ_cons]
  by_cases hv : c.visible
  · simp [List.filter, hv]
    omega
  · simp [List.filter, hv]

theorem allocGo_spec (st : LayoutData) (rs cs : ℚ) :
    ∀ (l : List ChildActor) (i : ℕ) (out : List (Option ActorBox)),
      allocGo st rs cs l i = some out →
      out.length = l.length ∧
      ∀ j, j < l.length →
        ((l.getD j ⟨false, 0, 0⟩).visible = true →
          out.getD j none = some (cellRect st rs cs (i + visibleRank l j))) ∧
        ((l.getD j ⟨false, 0, 0⟩).visible = false →
          out.getD j none = none) := by
  intro l
  induction l with
  | nil =>
      intro i out hout
      simp only [allocGo, Option.some_inj] at hout
      subst hout
      exact ⟨rfl, fun j hj => absurd hj (by simp)⟩
  | cons c t ih =>
      intro i out hout
      simp only [allocGo] at hout
      by_cases hv : c.visible
      · rw [if_pos hv] at hout
        by_cases hc0 : st.columns = 0
        · rw [if_pos hc0] at hout
          simp at hout
        · rw [if_neg hc0] at hout
          cases hrec : allocGo st rs cs t (i + 1) with
          | none => rw [hrec] at hout; simp at hout
          | some out' =>
              rw [hrec] at hout
              simp only [Option.map_some', Option.some_inj] at hout
              obtain ⟨hlen', hspec'⟩ := ih (i + 1) out' hrec
              refine ⟨by rw [← hout]; simp [hlen'], ?_⟩
              intro j hj
              cases j with
              | zero =>
                  constructor
                  · intro _
                    rw [← hout]
                    simp [visibleRank_zero]
                  · intro hvf
                    rw [List.getD_cons_zero] at hvf
                    rw [hv] at hvf
                    cases hvf
              | succ j2 =>
                  have hj2 : j2 < t.length := by
                    simp at hj
                    omega
                  obtain ⟨hs1, hs2⟩ := hspec' j2 hj2
                  constructor
                  · intro hvt
                    rw [List.getD_cons_succ] at hvt
                    rw [← hout, List.getD_cons_succ, hs1 hvt,
                      visibleRank_cons, if_pos hv]
                    congr 1
                    congr 1
                    omega
                  · intro hvf
                    rw [List.getD_cons_succ] at hvf
                    rw [← hout, List.getD_cons_succ]
                    exact hs2 hvf
      · rw [if_neg hv] at hout
        cases hrec : allocGo st rs cs t i with
        | none => rw [hrec] at hout; simp at hout
        | some out' =>
            rw [hrec] at hout
            simp only [Option.map_some', Option.some_inj] at hout
            obtain ⟨hlen', hspec'⟩ := ih i out' hrec
            refine ⟨by rw [← hout]; simp [hlen'], ?_⟩
            intro j hj
            cases j with
            | zero =>
                constructor
                · intro hvt
                  rw [List.getD_cons_zero] at hvt
                  exact absurd hvt hv
                · intro _
                  rw [← hout]
                  simp
            | succ j2 =>
                have hj2 : j2 < t.length := by
                  simp at hj
                  omega
                obtain ⟨hs1, hs2⟩ := hspec' j2 hj2
                constructor
                · intro hvt
                  rw [List.getD_cons_succ] at hvt
                  rw [← hout, List.getD_cons_succ, hs1 hvt,
                    visibleRank_cons, if_neg hv]
                  congr 1
                  congr 1
                  omega
                · intro hvf
                  rw [List.getD_cons_succ] at hvf
                  rw [← hout, List.getD_cons_succ]
                  exact hs2 hvf

theorem ceil_q_5_2 : (⌈(5 : ℚ) / 2⌉ : ℤ) = 3 := by
  rw [Int.ceil_eq_iff]
  norm_num

theorem ceil_q_9_2 : (⌈(9 : ℚ) / 2⌉ : ℤ) = 5 := by
  rw [Int.ceil_eq_iff]
  norm_num

theorem ceil_q_5_4 : (⌈(5 : ℚ) / 4⌉ : ℤ) = 2 := by
  rw [Int.ceil_eq_iff]
  norm_num

theorem ceil_q_21_10 : (⌈(21 : ℚ) / 10⌉ : ℤ) = 3 := by
  rw [Int.ceil_eq_iff]
  norm_num

theorem toNat_lit_2 : (2 : ℤ).toNat = 2 := rfl

theorem toNat_lit_3 : (3 : ℤ).toNat = 3 := rfl

theorem toNat_lit_5 : (5 : ℤ).toNat = 5 := rfl

end Helpers

section Claims

/-- Claim C9: calling the combined spacing setter with `s ≥ 0` differing from
at least one stored spacing sets both row- and column-spacing to `s` and emits
exactly one relayout-changed notification (`layoutChanged`), not two. -/
theorem combined_spacing_setter (st : SpacingState) (s : ℚ) (hs : 0 ≤ s)
    (hdiff : st.rowSpacing ≠ s ∨ st.columnSpacing ≠ s) :
    (set_spacing st s).1.rowSpacing = s ∧
    (set_spacing st s).1.columnSpacing = s ∧
    (set_spacing st s).2.count LayoutSignal.layoutChanged = 1 := by
  unfold set_spacing
  rw [if_neg (not_not_intro hs), if_pos hdiff]
  exact ⟨rfl, rfl, rfl⟩

/-- Witness for C9 at the state `(3, 7)` and spacing `10`. -/
theorem combined_spacing_setter_witness :
    (0 : ℚ) ≤ 10 ∧ ((⟨3, 7⟩ : SpacingState).rowSpacing ≠ 10 ∨
      (⟨3, 7⟩ : SpacingState).columnSpacing ≠ 10) ∧
    ((set_spacing ⟨3, 7⟩ 10).1.rowSpacing = 10 ∧
      (set_spacing ⟨3, 7⟩ 10).1.columnSpacing = 10 ∧
      (set_spacing ⟨3, 7⟩ 10).2.count LayoutSignal.layoutChanged = 1) :=
  ⟨by norm_num, Or.inl (by norm_num),
    combined_spacing_setter ⟨3, 7⟩ 10 (by norm_num) (Or.inl (by norm_num))⟩

/-- Claim C10: each spacing setter called with a value equal to the currently
stored value(s) leaves the state unchanged and emits no notification and no
layout-changed signal. -/
theorem equal_spacing_noop (st : SpacingState) (s : ℚ) :
    (st.rowSpacing = s ∧ st.columnSpacing = s → set_spacing st s = (st, [])) ∧
    (st.rowSpacing = s → set_row_spacing st s = (st, [])) ∧
    (st.columnSpacing = s → set_column_spacing st s = (st, [])) := by
  refine ⟨?_, ?_, ?_⟩
  · rintro ⟨h1, h2⟩
    unfold set_spacing
    by_cases hneg : ¬ 0 ≤ s
    · rw [if_pos hneg]
    · have hnd : ¬ (st.rowSpacing ≠ s ∨ st.columnSpacing ≠ s) := by
        push_neg
        exact ⟨h1, h2⟩
      rw [if_neg hneg, if_neg hnd]
  · intro h1
    unfold set_row_spacing
    by_cases hneg : ¬ 0 ≤ s
    · rw [if_pos hneg]
    · rw [if_neg hneg, if_neg (not_not_intro h1)]
  · intro h2
    unfold set_column_spacing
    by_cases hneg : ¬ 0 ≤ s
    · rw [if_pos hneg]
    · rw [if_neg hneg, if_neg (not_not_intro h2)]

/-- Witness for C10 at the state `(3, 3)` and spacing `3`. -/
theorem equal_spacing_noop_witness :
    ((⟨3, 3⟩ : SpacingState).rowSpacing = 3 ∧
      (⟨3, 3⟩ : SpacingState).columnSpacing = 3) ∧
    set_spacing ⟨3, 3⟩ 3 = (⟨3, 3⟩, []) ∧
    set_row_spacing ⟨3, 3⟩ 3 = (⟨3, 3⟩, []) ∧
    set_column_spacing ⟨3, 3⟩ 3 = (⟨3, 3⟩, []) :=
  ⟨⟨rfl, rfl⟩, (equal_spacing_noop ⟨3, 3⟩ 3).1 ⟨rfl, rfl⟩,
    (equal_spacing_noop ⟨3, 3⟩ 3).2.1 rfl,
    (equal_spacing_noop ⟨3, 3⟩ 3).2.2 rfl⟩

/-- Claim C4 (amended): with both width and height unconstrained, recompute
always succeeds with `rows = 1` and `columns = n`, for every visible-child
count n — including `n = 0`, where the code still sets `rows = 1` (the claim's
`rows = 0, columns = 0` for `n = 0` does not hold; see the counterexample). -/
theorem unconstrained_single_row (children : List ChildActor)
    (rm : ClutterRequestMode) (rs cs w h : ℚ) (hw : w < 0) (hh : h < 0) :
    ∃ st, update_layout_data children rm rs cs w h = some st ∧
      st.rows = 1 ∧ st.columns = (visibleChildren children).length := by
  have hm : layoutMode rm w h = .bothUnconstrained := by
    unfold layoutMode
    rw [if_pos ⟨hw, hh⟩]
  have hcs : computeShape rm rs cs w h (visibleChildren children).length
      (largestWidthOf (visibleChildren children))
      (largestHeightOf (visibleChildren children)) =
      some (1, (visibleChildren children).length,
        largestWidthOf (visibleChildren children),
        largestHeightOf (visibleChildren children)) := by
    unfold computeShape
    rw [hm]
  unfold update_layout_data
  rw [hcs]
  dsimp only
  by_cases hn : 1 ≤ (visibleChildren children).length
  · obtain ⟨l, hl, -⟩ := rowCoordsGo_some (visibleChildren children).length rs hn
      ((visibleChildren children).map (·.childHeight)) 0 (-rs) 0
    rw [hl]
    exact ⟨_, rfl, rfl, rfl⟩
  · have h0 : (visibleChildren children).length = 0 := by omega
    have hnil : visibleChildren children = [] := List.length_eq_zero.mp h0
    rw [hnil]
    exact ⟨_, rfl, rfl, rfl⟩

/-- Witness for C4 with one visible child of natural size 1x1 and zero
spacing. -/
theorem unconstrained_single_row_witness :
    (-1 : ℚ) < 0 ∧
    ∃ st, update_layout_data [⟨true, 1, 1⟩] .heightForWidth 0 0 (-1) (-1) =
        some st ∧ st.rows = 1 ∧
        st.columns = (visibleChildren [⟨true, 1, 1⟩]).length :=
  ⟨by norm_num,
    unconstrained_single_row [⟨true, 1, 1⟩] .heightForWidth 0 0 (-1) (-1)
      (by norm_num) (by norm_num)⟩

/-- Counterexample to C4 as stated: with zero children and both dimensions
unconstrained, the code produces `rows = 1`, not `rows = 0`. -/
theorem unconstrained_single_row_cex :
    (update_layout_data [] .heightForWidth 0 0 (-1) (-1)).map
        (fun st => (st.rows, st.columns)) ≠ some (0, 0) ∧
    (update_layout_data [] .heightForWidth 0 0 (-1) (-1)).map
        (fun st => (st.rows, st.columns)) = some (1, 0) := by
  have he : update_layout_data [] .heightForWidth 0 0 (-1) (-1) =
      some ⟨1, 0, 0, 0, 0, [0], [0]⟩ := by
    norm_num [update_layout_data, computeShape, layoutMode, visibleChildren,
      largestWidthOf, largestHeightOf, colCoordsGo, rowCoordsGo]
  rw [he]
  norm_num

/-- Claim C7 (amended): with zero visible children, recompute succeeds only in
the both-unconstrained case, yielding `rows = 1`, `columns = 0`,
`columnBoundaries = [0]` and `rowBoundaries = [-rowSpacing]`; with a
constrained dimension the rows/columns derivation computes `ceil(0/0)` and
casts the NaN to `gint` (undefined behaviour, modelled as failure). -/
theorem zero_children_recompute (children : List ChildActor)
    (rm : ClutterRequestMode) (rs cs w h : ℚ)
    (hvis : visibleChildren children = []) :
    (w < 0 → h < 0 →
      update_layout_data children rm rs cs w h =
        some ⟨1, 0, 0, 0, 0, [0], [-rs]⟩) ∧
    (¬ (w < 0 ∧ h < 0) →
      update_layout_data children rm rs cs w h = none) := by
  constructor
  · intro hw hh
    have hm : layoutMode rm w h = .bothUnconstrained := by
      unfold layoutMode
      rw [if_pos ⟨hw, hh⟩]
    have hcs : computeShape rm rs cs w h (visibleChildren children).length
        (largestWidthOf (visibleChildren children))
        (largestHeightOf (visibleChildren children)) =
        some (1, (visibleChildren children).length,
          largestWidthOf (visibleChildren children),
          largestHeightOf (visibleChildren children)) := by
      unfold computeShape
      rw [hm]
    unfold update_layout_data
    rw [hcs, hvis]
    show some _ = _
    have hrc : (-rs) + 0 = -rs := by ring
    simp only [List.length_nil, List.map_nil, rowCoordsGo, hrc]
    rfl
  · intro hb
    have hm : layoutMode rm w h ≠ .bothUnconstrained := by
      intro hm'
      exact hb (layoutMode_bothU hm')
    cases hu : update_layout_data children rm rs cs w h with
    | none => rfl
    | some st =>
        have := success_constrained_n_pos hu hm
        rw [hvis] at this
        simp at this

/-- Witness for C7 with one invisible child, row spacing 1: the
both-unconstrained call succeeds with `rows = 1` and
`rowBoundaries = [-1]`. -/
theorem zero_children_recompute_witness :
    visibleChildren [⟨false, 7, 9⟩] = [] ∧ (-1 : ℚ) < 0 ∧
    update_layout_data [⟨false, 7, 9⟩] .heightForWidth 1 0 (-1) (-1) =
      some ⟨1, 0, 0, 0, 0, [0], [-1]⟩ :=
  ⟨rfl, by norm_num,
    (zero_children_recompute [⟨false, 7, 9⟩] .heightForWidth 1 0 (-1) (-1)
      rfl).1 (by norm_num) (by norm_num)⟩

/-- Counterexample to C7 as stated: with zero visible children, row spacing 1
and both dimensions unconstrained, the call yields `rows = 1` and
`rowBoundaries = [-1]`, not `rows = 0` and `rowBoundaries = [0]`. -/
theorem zero_children_recompute_cex :
    (update_layout_data [⟨false, 7, 9⟩] .heightForWidth 1 0 (-1) (-1)).map
        (fun st => (st.rows, st.rowCoords)) ≠ some (0, [0]) ∧
    (update_layout_data [⟨false, 7, 9⟩] .heightForWidth 1 0 (-1) (-1)).map
        (fun st => (st.rows, st.rowCoords)) = some (1, [-1]) := by
  have he : update_layout_data [⟨false, 7, 9⟩] .heightForWidth 1 0 (-1) (-1) =
      some ⟨1, 0, 0, 0, 0, [0], [-1]⟩ := by
    norm_num [update_layout_data, computeShape, layoutMode, visibleChildren,
      largestWidthOf, largestHeightOf, colCoordsGo, rowCoordsGo]
  rw [he]
  norm_num

/-- Claim C1 (amended): after every successful recompute with `n > 0` visible
children, `n ≤ rows * columns` always holds; the tightness bound holds on the
derived axis: `(rows-1)*columns < n` in the both-unconstrained and
height-for-width branches, and `(columns-1)*rows < n` in the width-for-height
branch (there the code fixes `rows` from the height fit and `(rows-1)*columns`
can reach `n`; see the counterexample). -/
theorem grid_shape_invariant (children : List ChildActor)
    (rm : ClutterRequestMode) (rs cs w h : ℚ) (st : LayoutData)
    (hu : update_layout_data children rm rs cs w h = some st)
    (hn : 1 ≤ st.numberChildren) :
    st.numberChildren ≤ st.rows * st.columns ∧
    (layoutMode rm w h = .bothUnconstrained ∨
        layoutMode rm w h = .heightForWidth →
      (st.rows - 1) * st.columns < st.numberChildren) ∧
    (layoutMode rm w h = .widthForHeight →
      (st.columns - 1) * st.rows < st.numberChildren) := by
  obtain ⟨hcs, hnum, -, -⟩ := update_some hu
  rw [hnum] at hn ⊢
  rcases computeShape_some hcs with ⟨hm, hr, hc, -⟩ | ⟨hm, -, hc1, -, hr, -⟩ |
      ⟨hm, -, hr1, -, hc, -⟩
  · rw [hr, hc]
    exact ⟨by omega, fun _ => by omega, fun _ => by omega⟩
  · rw [hr]
    refine ⟨le_ceilq_mul _ _ hc1,
      fun _ => ceilq_sub_one_mul_lt _ _ hc1 hn, fun hwfh => ?_⟩
    rw [hm] at hwfh
    exact LayoutMode.noConfusion hwfh
  · rw [hc]
    refine ⟨?_, ?_, fun _ => ceilq_sub_one_mul_lt _ _ hr1 hn⟩
    · rw [Nat.mul_comm]
      exact le_ceilq_mul _ _ hr1
    · rintro (h1 | h2)
      · rw [hm] at h1
        exact LayoutMode.noConfusion h1
      · rw [hm] at h2
        exact LayoutMode.noConfusion h2

/-- Witness for C1 with one visible 1x1 child, both sizes unconstrained
(so the both-unconstrained tightness bound applies). -/
theorem grid_shape_invariant_witness :
    update_layout_data [⟨true, 1, 1⟩] .heightForWidth 0 0 (-1) (-1) =
      some ⟨1, 1, 1, 1, 1, [0, 1], [0, 1]⟩ ∧
    (1 : ℕ) ≤ 1 ∧
    layoutMode .heightForWidth (-1 : ℚ) (-1) = .bothUnconstrained ∧
    ((1 : ℕ) ≤ 1 * 1 ∧ ((1 : ℕ) - 1) * 1 < 1) := by
  have he : update_layout_data [⟨true, 1, 1⟩] .heightForWidth 0 0 (-1) (-1) =
      some ⟨1, 1, 1, 1, 1, [0, 1], [0, 1]⟩ := by
    norm_num [update_layout_data, computeShape, layoutMode, visibleChildren,
      largestWidthOf, largestHeightOf, colCoordsGo, rowCoordsGo]
  have hm : layoutMode .heightForWidth (-1 : ℚ) (-1) = .bothUnconstrained := by
    unfold layoutMode
    rw [if_pos ⟨by norm_num, by norm_num⟩]
  have hres := grid_shape_invariant [⟨true, 1, 1⟩] .heightForWidth 0 0 (-1) (-1)
    ⟨1, 1, 1, 1, 1, [0, 1], [0, 1]⟩ he (le_refl 1)
  exact ⟨he, le_refl 1, hm, hres.1, hres.2.1 (Or.inl hm)⟩

/-- Counterexample to C1 as stated: 5 visible children of natural size 10x10,
zero spacing, height constrained to 45 and width unconstrained
(width-for-height mode) yield `rows = 4`, `columns = 2`, and
`(rows - 1) * columns = 6 ≥ 5 = n`. -/
theorem grid_shape_invariant_cex :
    (update_layout_data (List.replicate 5 ⟨true, 10, 10⟩) .heightForWidth
        0 0 (-1) 45).map (fun st => (st.numberChildren, st.rows, st.columns)) =
      some (5, 4, 2) ∧
    ¬ ((4 - 1) * 2 < 5) := by
  have hm : layoutMode .heightForWidth (-1 : ℚ) 45 = .widthForHeight :=
    layoutMode_wfh_of _ (by norm_num) (by norm_num)
  have he : update_layout_data (List.replicate 5 ⟨true, 10, 10⟩) .heightForWidth
      0 0 (-1) 45 = some ⟨4, 2, 5, 10, 45 / 4, [0, 10, 20, 30, 40, 50],
        [0, 10, 20, 30]⟩ := by
    norm_num [update_layout_data, computeShape, hm, hfwColumns, wfhRows,
      shrinkStart, shrinkLoop, visibleChildren, largestWidthOf, largestHeightOf,
      colCoordsGo, rowCoordsGo, List.replicate, ceil_q_9_2, ceil_q_5_4,
      toNat_lit_2, toNat_lit_5]
  rw [he]
  norm_num

/-- Claim C5 (amended): after every successful recompute (non-negative
spacings), `columnBoundaries` is a non-decreasing sequence of exactly `n + 1`
entries (one per visible child plus a final one — not `columns + 1`) starting
at 0, and `rowBoundaries` is a non-decreasing sequence of exactly
`ceil(n/columns) + 1` entries (which equals `rows + 1` except in
width-for-height mode, where `rows` can exceed the number of started rows). -/
theorem boundary_sequences (children : List ChildActor)
    (rm : ClutterRequestMode) (rs cs w h : ℚ) (st : LayoutData)
    (hrs : 0 ≤ rs) (hcs0 : 0 ≤ cs)
    (hu : update_layout_data children rm rs cs w h = some st) :
    st.columnCoords.length = st.numberChildren + 1 ∧
    st.columnCoords.getD 0 0 = 0 ∧
    List.Chain' (· ≤ ·) st.columnCoords ∧
    st.rowCoords.length = (st.numberChildren + st.columns - 1) / st.columns + 1 ∧
    List.Chain' (· ≤ ·) st.rowCoords := by
  obtain ⟨hcs, hnum, hcol, hrow⟩ := update_some hu
  have hstep : 0 ≤ st.cellWidth + cs := by
    have := success_cellWidth_nonneg hu
    linarith
  refine ⟨?_, ?_, ?_, ?_, ?_⟩
  · rw [hcol, hnum, colCoordsGo_length]
  · rw [hcol, colCoordsGo_getD _ _ 0 0 (Nat.zero_le _)]
    norm_num
  · rw [hcol]
    exact colCoordsGo_chain _ hstep _ _
  · by_cases hn : 1 ≤ (visibleChildren children).length
    · have hcpos := success_columns_pos hu hn
      obtain ⟨l, hl, hlen⟩ := rowCoordsGo_some st.columns rs hcpos
        ((visibleChildren children).map (·.childHeight)) 0 (-rs) 0
      rw [hrow, Option.some_inj] at hl
      rw [hl, hlen, List.length_map, rowStarts_zero st.columns hcpos, hnum]
    · have h0 : (visibleChildren children).length = 0 := by omega
      have hnil : visibleChildren children = [] := List.length_eq_zero.mp h0
      rw [hnil] at hrow
      simp only [List.map_nil, rowCoordsGo, Option.some_inj] at hrow
      have hc0 : st.columns = 0 := by
        rcases computeShape_some hcs with ⟨-, -, hc, -⟩ | ⟨hm, -⟩ | ⟨hm, -⟩
        · omega
        · have := success_constrained_n_pos hu (by simp [hm])
          omega
        · have := success_constrained_n_pos hu (by simp [hm])
          omega
      rw [← hrow, hnum, h0, hc0]
      norm_num
  · obtain ⟨hd, tl, -, -, hch⟩ := rowCoordsGo_chain st.columns rs hrs
      ((visibleChildren children).map (·.childHeight)) 0 (-rs) 0 st.rowCoords
      (le_refl 0) hrow
    exact hch

/-- Witness for C5 with one visible 1x1 child, both sizes unconstrained,
zero spacing. -/
theorem boundary_sequences_witness :
    (0 : ℚ) ≤ 0 ∧
    update_layout_data [⟨true, 1, 1⟩] .heightForWidth 0 0 (-1) (-1) =
      some ⟨1, 1, 1, 1, 1, [0, 1], [0, 1]⟩ ∧
    (([0, 1] : List ℚ).length = 1 + 1 ∧
      ([0, 1] : List ℚ).getD 0 0 = 0 ∧
      List.Chain' (· ≤ ·) ([0, 1] : List ℚ) ∧
      ([0, 1] : List ℚ).length = (1 + 1 - 1) / 1 + 1 ∧
      List.Chain' (· ≤ ·) ([0, 1] : List ℚ)) := by
  have he : update_layout_data [⟨true, 1, 1⟩] .heightForWidth 0 0 (-1) (-1) =
      some ⟨1, 1, 1, 1, 1, [0, 1], [0, 1]⟩ := by
    norm_num [update_layout_data, computeShape, layoutMode, visibleChildren,
      largestWidthOf, largestHeightOf, colCoordsGo, rowCoordsGo]
  exact ⟨le_refl 0, he,
    boundary_sequences [⟨true, 1, 1⟩] .heightForWidth 0 0 (-1) (-1)
      ⟨1, 1, 1, 1, 1, [0, 1], [0, 1]⟩ (le_refl 0) (le_refl 0) he⟩

/-- Counterexample to C5 as stated: with 5 children of size 100x50 at
available width 250 (height-for-width), `columnBoundaries` has 6 entries, not
`columns + 1 = 3`; and with 5 children of size 10x10 at available height 45
(width-for-height), `rowBoundaries` has 4 entries, not `rows + 1 = 5`. -/
theorem boundary_sequences_cex :
    (update_layout_data (List.replicate 5 ⟨true, 100, 50⟩) .widthForHeight
        0 0 250 (-1)).map (fun st => (st.columnCoords.length, st.columns)) =
      some (6, 2) ∧ ¬ ((6 : ℕ) = 2 + 1) ∧
    (update_layout_data (List.replicate 5 ⟨true, 10, 10⟩) .heightForWidth
        0 0 (-1) 45).map (fun st => (st.rowCoords.length, st.rows)) =
      some (4, 4) ∧ ¬ ((4 : ℕ) = 4 + 1) := by
  have he1 : update_layout_data (List.replicate 5 ⟨true, 100, 50⟩)
      .widthForHeight 0 0 250 (-1) =
      some ⟨3, 2, 5, 125, 50, [0, 125, 250, 375, 500, 625],
        [0, 50, 100, 150]⟩ := by
    norm_num [update_layout_data, computeShape, layoutMode, hfwColumns, wfhRows,
      shrinkStart, shrinkLoop, visibleChildren, largestWidthOf, largestHeightOf,
      colCoordsGo, rowCoordsGo, List.replicate, ceil_q_5_2, toNat_lit_3]
  have hm : layoutMode .heightForWidth (-1 : ℚ) 45 = .widthForHeight :=
    layoutMode_wfh_of _ (by norm_num) (by norm_num)
  have he2 : update_layout_data (List.replicate 5 ⟨true, 10, 10⟩)
      .heightForWidth 0 0 (-1) 45 =
      some ⟨4, 2, 5, 10, 45 / 4, [0, 10, 20, 30, 40, 50], [0, 10, 20, 30]⟩ := by
    norm_num [update_layout_data, computeShape, hm, hfwColumns, wfhRows,
      shrinkStart, shrinkLoop, visibleChildren, largestWidthOf, largestHeightOf,
      colCoordsGo, rowCoordsGo, List.replicate, ceil_q_9_2, ceil_q_5_4,
      toNat_lit_2, toNat_lit_5]
  rw [he1, he2]
  norm_num

/-- Claim C3: 5 visible children of natural size 100x50, both spacings 0,
available width 250 and height unconstrained: the mode override selects
height-for-width (even though the container requested width-for-height), and
the recompute produces `columns = 2`, `rows = 3` and effective cell width
125. -/
theorem five_children_example :
    layoutMode .widthForHeight 250 (-1) = .heightForWidth ∧
    (update_layout_data (List.replicate 5 ⟨true, 100, 50⟩) .widthForHeight
        0 0 250 (-1)).map (fun st => (st.rows, st.columns, st.cellWidth)) =
      some (3, 2, 125) := by
  constructor
  · exact layoutMode_hfw_of _ (by norm_num) (by norm_num)
  · have he : update_layout_data (List.replicate 5 ⟨true, 100, 50⟩)
        .widthForHeight 0 0 250 (-1) =
        some ⟨3, 2, 5, 125, 50, [0, 125, 250, 375, 500, 625],
          [0, 50, 100, 150]⟩ := by
      norm_num [update_layout_data, computeShape, layoutMode, hfwColumns,
        wfhRows, shrinkStart, shrinkLoop, visibleChildren, largestWidthOf,
        largestHeightOf, colCoordsGo, rowCoordsGo, List.replicate, ceil_q_5_2,
        toNat_lit_3]
    rw [he]
    norm_num

/-- Claim C6 (amended): after a successful recompute with `n > 0`,
`columnBoundaries[columns]` equals `columns * (cellWidth + columnSpacing)`,
i.e. `columns*cellWidth + columns*columnSpacing` — a trailing column spacing
IS included, unlike the claim's `(columns-1)*columnSpacing` (see the
counterexample); and GetPreferredWidth returns
`minWidth = (columns-1)*columnSpacing` and
`naturalWidth = columnBoundaries[columns]`. -/
theorem preferred_width_total (children : List ChildActor)
    (rm : ClutterRequestMode) (rs cs w h fh : ℚ) (st st2 : LayoutData)
    (hu : update_layout_data children rm rs cs w h = some st)
    (hu2 : update_layout_data children rm rs cs (-1) fh = some st2)
    (hn2 : 1 ≤ st2.numberChildren) :
    st.columnCoords.getD st.columns 0 =
      (st.columns : ℚ) * (st.cellWidth + cs) ∧
    get_preferred_width children rm rs cs fh =
      some (((st2.columns : ℚ) - 1) * cs,
        (st2.columns : ℚ) * (st2.cellWidth + cs)) := by
  refine ⟨boundary_at_columns hu, ?_⟩
  have hnum2 := (update_some hu2).2.1
  have hcpos : 1 ≤ st2.columns := success_columns_pos hu2 (by omega)
  unfold get_preferred_width
  rw [hu2]
  show (if 0 < st2.columns then _ else _) = _
  rw [if_pos (by omega), boundary_at_columns hu2]

/-- Witness for C6 with one visible 1x1 child, both recomputes unconstrained,
zero spacing. -/
theorem preferred_width_total_witness :
    update_layout_data [⟨true, 1, 1⟩] .heightForWidth 0 0 (-1) (-1) =
      some ⟨1, 1, 1, 1, 1, [0, 1], [0, 1]⟩ ∧
    (1 : ℕ) ≤ 1 ∧
    (([0, 1] : List ℚ).getD 1 0 = ((1 : ℕ) : ℚ) * (1 + 0) ∧
      get_preferred_width [⟨true, 1, 1⟩] .heightForWidth 0 0 (-1) =
        some ((((1 : ℕ) : ℚ) - 1) * 0, ((1 : ℕ) : ℚ) * (1 + 0))) := by
  have he : update_layout_data [⟨true, 1, 1⟩] .heightForWidth 0 0 (-1) (-1) =
      some ⟨1, 1, 1, 1, 1, [0, 1], [0, 1]⟩ := by
    norm_num [update_layout_data, computeShape, layoutMode, visibleChildren,
      largestWidthOf, largestHeightOf, colCoordsGo, rowCoordsGo]
  exact ⟨he, le_refl 1,
    preferred_width_total [⟨true, 1, 1⟩] .heightForWidth 0 0 (-1) (-1) (-1)
      ⟨1, 1, 1, 1, 1, [0, 1], [0, 1]⟩ ⟨1, 1, 1, 1, 1, [0, 1], [0, 1]⟩
      he he (le_refl 1)⟩

/-- Counterexample to C6 as stated: two visible 100x50 children, column
spacing 10, available width 210, height unconstrained give `columns = 2`,
effective cell width 100, and `columnBoundaries[2] = 220`, while the claim's
formula `columns*cellWidth + (columns-1)*columnSpacing` gives 210. -/
theorem preferred_width_total_cex :
    (update_layout_data [⟨true, 100, 50⟩, ⟨true, 100, 50⟩] .heightForWidth
        0 10 210 (-1)).map
        (fun st => (st.columns, st.cellWidth,
          st.columnCoords.getD st.columns 0)) = some (2, 100, 220) ∧
    ¬ ((220 : ℚ) = 2 * 100 + (2 - 1) * 10) := by
  have he : update_layout_data [⟨true, 100, 50⟩, ⟨true, 100, 50⟩]
      .heightForWidth 0 10 210 (-1) =
      some ⟨1, 2, 2, 100, 50, [0, 110, 220], [0, 50]⟩ := by
    norm_num [update_layout_data, computeShape, layoutMode, hfwColumns,
      wfhRows, shrinkStart, shrinkLoop, visibleChildren, largestWidthOf,
      largestHeightOf, colCoordsGo, rowCoordsGo, ceil_q_21_10, toNat_lit_2]
  rw [he]
  norm_num

/-- Claim C8 (amended): the division by the largest natural size is not
guarded.  In the height-for-width derivation with largest natural width 0 and
`n ≥ 1` visible children, the IEEE quotient is infinite (or NaN for `0/0`),
the `MIN` macro resolves to `n`, so the candidate is `n + 1` and the shrink
loop still runs; the result is `columns = n` exactly when
`(n-1)*columnSpacing ≤ availableWidth`, and strictly smaller than `n`
otherwise.  Symmetrically for the largest natural height and rows in the
width-for-height derivation. -/
theorem zero_size_division (children : List ChildActor)
    (rm : ClutterRequestMode) (rs cs w h : ℚ)
    (hn : 1 ≤ (visibleChildren children).length) :
    (largestWidthOf (visibleChildren children) = 0 →
      layoutMode rm w h = .heightForWidth →
      (¬ w < (((visibleChildren children).length : ℚ) - 1) * cs →
        (update_layout_data children rm rs cs w h).map
          (fun st => st.columns) = some (visibleChildren children).length) ∧
      (w < (((visibleChildren children).length : ℚ) - 1) * cs →
        ∃ c', (update_layout_data children rm rs cs w h).map
            (fun st => st.columns) = some c' ∧
          c' < (visibleChildren children).length)) ∧
    (largestHeightOf (visibleChildren children) = 0 →
      layoutMode rm w h = .widthForHeight →
      (¬ h < (((visibleChildren children).length : ℚ) - 1) * rs →
        (update_layout_data children rm rs cs w h).map
          (fun st => st.rows) = some (visibleChildren children).length) ∧
      (h < (((visibleChildren children).length : ℚ) - 1) * rs →
        ∃ r', (update_layout_data children rm rs cs w h).map
            (fun st => st.rows) = some r' ∧
          r' < (visibleChildren children).length)) := by
  constructor
  · intro hlw hm
    have hw : ¬ w < 0 := not_lt.mpr (layoutMode_hfw_width_nonneg hm)
    have hss : shrinkStart w (largestWidthOf (visibleChildren children))
        (visibleChildren children).length =
        (visibleChildren children).length + 1 := by
      rw [hlw]
      simp [shrinkStart]
    constructor
    · intro hwcs
      have hsl : hfwColumns cs w (largestWidthOf (visibleChildren children))
          (visibleChildren children).length =
          (visibleChildren children).length := by
        rw [hfwColumns, hss, hlw]
        exact shrinkLoop_zero_largest cs w _ hn hwcs
      have hcs2 : computeShape rm rs cs w h
          (visibleChildren children).length
          (largestWidthOf (visibleChildren children))
          (largestHeightOf (visibleChildren children)) =
          some ((⌈((visibleChildren children).length : ℚ) /
              ((visibleChildren children).length : ℚ)⌉).toNat,
            (visibleChildren children).length,
            ((⌊w - (((visibleChildren children).length : ℚ) - 1) * cs⌋ : ℤ) : ℚ) /
              ((visibleChildren children).length : ℚ),
            largestHeightOf (visibleChildren children)) := by
        unfold computeShape
        rw [hm]
        dsimp only
        rw [hsl, if_neg (by omega)]
      unfold update_layout_data
      rw [hcs2]
      dsimp only
      obtain ⟨l, hl, -⟩ := rowCoordsGo_some (visibleChildren children).length
        rs hn ((visibleChildren children).map (·.childHeight)) 0 (-rs) 0
      rw [hl]
      rfl
    · intro hwcs
      have h2n : 2 ≤ (visibleChildren children).length := by
        by_contra hle
        have hn1 : (visibleChildren children).length = 1 := by omega
        rw [hn1] at hwcs
        norm_num at hwcs
        exact hw hwcs
      have hsl : hfwColumns cs w (largestWidthOf (visibleChildren children))
          (visibleChildren children).length =
          shrinkLoop 0 cs w ((visibleChildren children).length + 1) := by
        rw [hfwColumns, hss, hlw]
      have hlt : shrinkLoop 0 cs w ((visibleChildren children).length + 1) <
          (visibleChildren children).length :=
        shrinkLoop_zero_largest_lt cs w _ (by omega) hwcs
      have hpos : 1 ≤ shrinkLoop 0 cs w ((visibleChildren children).length + 1) :=
        shrinkLoop_pos 0 cs w _ (by omega)
      have hcs2 : computeShape rm rs cs w h
          (visibleChildren children).length
          (largestWidthOf (visibleChildren children))
          (largestHeightOf (visibleChildren children)) =
          some ((⌈((visibleChildren children).length : ℚ) /
              ((shrinkLoop 0 cs w ((visibleChildren children).length + 1) : ℕ) : ℚ)⌉).toNat,
            shrinkLoop 0 cs w ((visibleChildren children).length + 1),
            ((⌊w - ((shrinkLoop 0 cs w ((visibleChildren children).length + 1) : ℚ) - 1)
                * cs⌋ : ℤ) : ℚ) /
              ((shrinkLoop 0 cs w ((visibleChildren children).length + 1) : ℕ) : ℚ),
            largestHeightOf (visibleChildren children)) := by
        unfold computeShape
        rw [hm]
        dsimp only
        rw [hsl, if_neg (by omega)]
      refine ⟨shrinkLoop 0 cs w ((visibleChildren children).length + 1), ?_, hlt⟩
      unfold update_layout_data
      rw [hcs2]
      dsimp only
      obtain ⟨l, hl, -⟩ := rowCoordsGo_some
        (shrinkLoop 0 cs w ((visibleChildren children).length + 1)) rs hpos
        ((visibleChildren children).map (·.childHeight)) 0 (-rs) 0
      rw [hl]
      rfl
  · intro hlh hm
    have hh : ¬ h < 0 := not_lt.mpr (layoutMode_wfh_height_nonneg hm)
    have hss : shrinkStart h (largestHeightOf (visibleChildren children))
        (visibleChildren children).length =
        (visibleChildren children).length + 1 := by
      rw [hlh]
      simp [shrinkStart]
    constructor
    · intro hhrs
      have hsl : wfhRows rs h (largestHeightOf (visibleChildren children))
          (visibleChildren children).length =
          (visibleChildren children).length := by
        rw [wfhRows, hss, hlh]
        exact shrinkLoop_zero_largest rs h _ hn hhrs
      have hcpos : 1 ≤ (⌈((visibleChildren children).length : ℚ) /
          ((visibleChildren children).length : ℚ)⌉).toNat :=
        ceilq_pos _ _ hn hn
      have hcs2 : computeShape rm rs cs w h
          (visibleChildren children).length
          (largestWidthOf (visibleChildren children))
          (largestHeightOf (visibleChildren children)) =
          some ((visibleChildren children).length,
            (⌈((visibleChildren children).length : ℚ) /
              ((visibleChildren children).length : ℚ)⌉).toNat,
            largestWidthOf (visibleChildren children),
            ((⌊h - (((visibleChildren children).length : ℚ) - 1) * rs⌋ : ℤ) : ℚ) /
              ((visibleChildren children).length : ℚ)) := by
        unfold computeShape
        rw [hm]
        dsimp only
        rw [hsl, if_neg (by omega)]
      unfold update_layout_data
      rw [hcs2]
      dsimp only
      obtain ⟨l, hl, -⟩ := rowCoordsGo_some
        (⌈((visibleChildren children).length : ℚ) /
          ((visibleChildren children).length : ℚ)⌉).toNat rs hcpos
        ((visibleChildren children).map (·.childHeight)) 0 (-rs) 0
      rw [hl]
      rfl
    · intro hhrs
      have h2n : 2 ≤ (visibleChildren children).length := by
        by_contra hle
        have hn1 : (visibleChildren children).length = 1 := by omega
        rw [hn1] at hhrs
        norm_num at hhrs
        exact hh hhrs
      have hsl : wfhRows rs h (largestHeightOf (visibleChildren children))
          (visibleChildren children).length =
          shrinkLoop 0 rs h ((visibleChildren children).length + 1) := by
        rw [wfhRows, hss, hlh]
      have hlt : shrinkLoop 0 rs h ((visibleChildren children).length + 1) <
          (visibleChildren children).length :=
        shrinkLoop_zero_largest_lt rs h _ (by omega) hhrs
      have hpos : 1 ≤ shrinkLoop 0 rs h ((visibleChildren children).length + 1) :=
        shrinkLoop_pos 0 rs h _ (by omega)
      have hcpos : 1 ≤ (⌈((visibleChildren children).length : ℚ) /
          ((shrinkLoop 0 rs h ((visibleChildren children).length + 1) : ℕ) : ℚ)⌉).toNat :=
        ceilq_pos _ _ hn hpos
      have hcs2 : computeShape rm rs cs w h
          (visibleChildren children).length
          (largestWidthOf (visibleChildren children))
          (largestHeightOf (visibleChildren children)) =
          some (shrinkLoop 0 rs h ((visibleChildren children).length + 1),
            (⌈((visibleChildren children).length : ℚ) /
              ((shrinkLoop 0 rs h ((visibleChildren children).length + 1) : ℕ) : ℚ)⌉).toNat,
            largestWidthOf (visibleChildren children),
            ((⌊h - ((shrinkLoop 0 rs h ((visibleChildren children).length + 1) : ℚ) - 1)
                * rs⌋ : ℤ) : ℚ) /
              ((shrinkLoop 0 rs h ((visibleChildren children).length + 1) : ℕ) : ℚ)) := by
        unfold computeShape
        rw [hm]
        dsimp only
        rw [hsl, if_neg (by omega)]
      refine ⟨shrinkLoop 0 rs h ((visibleChildren children).length + 1), ?_, hlt⟩
      unfold update_layout_data
      rw [hcs2]
      dsimp only
      obtain ⟨l, hl, -⟩ := rowCoordsGo_some
        (⌈((visibleChildren children).length : ℚ) /
          ((shrinkLoop 0 rs h ((visibleChildren children).length + 1) : ℕ) : ℚ)⌉).toNat
        rs hcpos ((visibleChildren children).map (·.childHeight)) 0 (-rs) 0
      rw [hl]
      rfl

/-- Witness for C8: two visible children of natural size 0x5, column spacing
2, available width 5, height unconstrained (so the mode is height-for-width
and `(n-1)*columnSpacing = 2 ≤ 5`): columns = n = 2. -/
theorem zero_size_division_witness :
    (1 : ℕ) ≤ (visibleChildren [⟨true, 0, 5⟩, ⟨true, 0, 5⟩]).length ∧
    largestWidthOf (visibleChildren [⟨true, 0, 5⟩, ⟨true, 0, 5⟩]) = 0 ∧
    layoutMode .heightForWidth (5 : ℚ) (-1) = .heightForWidth ∧
    ¬ (5 : ℚ) < (((visibleChildren [⟨true, 0, 5⟩, ⟨true, 0, 5⟩]).length : ℚ)
      - 1) * 2 ∧
    (update_layout_data [⟨true, 0, 5⟩, ⟨true, 0, 5⟩] .heightForWidth 0 2
        5 (-1)).map (fun st => st.columns) =
      some (visibleChildren [⟨true, 0, 5⟩, ⟨true, 0, 5⟩]).length := by
  have h1 : (1 : ℕ) ≤ (visibleChildren [⟨true, 0, 5⟩, ⟨true, 0, 5⟩]).length := by
    simp [visibleChildren]
  have h2 : largestWidthOf (visibleChildren [⟨true, 0, 5⟩, ⟨true, 0, 5⟩]) = 0 := by
    norm_num [largestWidthOf, visibleChildren]
  have hm : layoutMode .heightForWidth (5 : ℚ) (-1) = .heightForWidth :=
    layoutMode_hfw_of _ (by norm_num) (by norm_num)
  have h4 : ¬ (5 : ℚ) <
      (((visibleChildren [⟨true, 0, 5⟩, ⟨true, 0, 5⟩]).length : ℚ) - 1) * 2 := by
    norm_num [visibleChildren]
  exact ⟨h1, h2, hm, h4,
    ((zero_size_division [⟨true, 0, 5⟩, ⟨true, 0, 5⟩] .heightForWidth 0 2
      5 (-1) h1).1 h2 hm).1 h4⟩

/-- Counterexample to C8 as stated: two visible children of natural width 0,
column spacing 10, available width 5: the shrink loop runs and yields
`columns = 1`, not `columns = n = 2`. -/
theorem zero_size_division_cex :
    (update_layout_data [⟨true, 0, 5⟩, ⟨true, 0, 5⟩] .heightForWidth 0 10
        5 (-1)).map (fun st => st.columns) = some 1 ∧ ¬ ((1 : ℕ) = 2) := by
  have he : update_layout_data [⟨true, 0, 5⟩, ⟨true, 0, 5⟩] .heightForWidth
      0 10 5 (-1) = some ⟨2, 1, 2, 5, 5, [0, 15, 30], [0, 5, 10]⟩ := by
    norm_num [update_layout_data, computeShape, layoutMode, hfwColumns,
      wfhRows, shrinkStart, shrinkLoop, visibleChildren, largestWidthOf,
      largestHeightOf, colCoordsGo, rowCoordsGo, toNat_lit_2]
  rw [he]
  norm_num

/-- Claim C2: whenever an Allocate call completes, the output assigns exactly
one rectangle per visible child and none to invisible children; the visible
child with running index `i` receives exactly the rectangle from
`(columnBoundaries[i % columns], rowBoundaries[i / columns])` to
`(columnBoundaries[i % columns + 1] - columnSpacing,
rowBoundaries[i / columns + 1] - rowSpacing)`. -/
theorem allocate_assigns_cells (children : List ChildActor)
    (rm : ClutterRequestMode) (rs cs : ℚ) (box : ActorBox)
    (st : LayoutData) (out : List (Option ActorBox))
    (hu : update_layout_data children rm rs cs (box.x2 - box.x1)
      (box.y2 - box.y1) = some st)
    (ha : allocate children rm rs cs box = some out) :
    out.length = children.length ∧
    ∀ j, j < children.length →
      ((children.getD j ⟨false, 0, 0⟩).visible = true →
        out.getD j none = some (cellRect st rs cs (visibleRank children j))) ∧
      ((children.getD j ⟨false, 0, 0⟩).visible = false →
        out.getD j none = none) := by
  unfold allocate at ha
  rw [hu] at ha
  dsimp only at ha
  obtain ⟨hlen, hspec⟩ := allocGo_spec st rs cs children 0 out ha
  refine ⟨hlen, ?_⟩
  intro j hj
  obtain ⟨h1, h2⟩ := hspec j hj
  exact ⟨fun hv => by rw [h1 hv, Nat.zero_add], h2⟩

/-- Witness for C2 with one visible 1x1 child allocated in a 2x2 box: the
child receives the cell rectangle `(0,0)-(2,1)`. -/
theorem allocate_assigns_cells_witness :
    update_layout_data [⟨true, 1, 1⟩] .heightForWidth 0 0
      ((⟨0, 0, 2, 2⟩ : ActorBox).x2 - (⟨0, 0, 2, 2⟩ : ActorBox).x1)
      ((⟨0, 0, 2, 2⟩ : ActorBox).y2 - (⟨0, 0, 2, 2⟩ : ActorBox).y1) =
      some ⟨1, 1, 1, 2, 1, [0, 2], [0, 1]⟩ ∧
    allocate [⟨true, 1, 1⟩] .heightForWidth 0 0 ⟨0, 0, 2, 2⟩ =
      some [some ⟨0, 0, 2, 1⟩] ∧
    ([some (⟨0, 0, 2, 1⟩ : ActorBox)].getD 0 none =
      some (cellRect ⟨1, 1, 1, 2, 1, [0, 2], [0, 1]⟩ 0 0
        (visibleRank [⟨true, 1, 1⟩] 0))) := by
  have hm : layoutMode .heightForWidth (2 : ℚ) 2 = .heightForWidth := by
    unfold layoutMode
    rw [if_neg (by norm_num)]
    rw [if_pos]
    rw [if_neg (by norm_num), if_neg (by norm_num)]
  have he : update_layout_data [⟨true, 1, 1⟩] .heightForWidth 0 0 2 2 =
      some ⟨1, 1, 1, 2, 1, [0, 2], [0, 1]⟩ := by
    norm_num [update_layout_data, computeShape, hm, hfwColumns, wfhRows,
      shrinkStart, shrinkLoop, visibleChildren, largestWidthOf,
      largestHeightOf, colCoordsGo, rowCoordsGo, toNat_lit_2]
  have he' : update_layout_data [⟨true, 1, 1⟩] .heightForWidth 0 0
      ((⟨0, 0, 2, 2⟩ : ActorBox).x2 - (⟨0, 0, 2, 2⟩ : ActorBox).x1)
      ((⟨0, 0, 2, 2⟩ : ActorBox).y2 - (⟨0, 0, 2, 2⟩ : ActorBox).y1) =
      some ⟨1, 1, 1, 2, 1, [0, 2], [0, 1]⟩ := by
    norm_num
    exact he
  have ha : allocate [⟨true, 1, 1⟩] .heightForWidth 0 0 ⟨0, 0, 2, 2⟩ =
      some [some ⟨0, 0, 2, 1⟩] := by
    unfold allocate
    rw [he']
    dsimp only
    norm_num [allocGo, cellRect]
  refine ⟨he', ha, ?_⟩
  have hres := allocate_assigns_cells [⟨true, 1, 1⟩] .heightForWidth 0 0
    ⟨0, 0, 2, 2⟩ ⟨1, 1, 1, 2, 1, [0, 2], [0, 1]⟩ [some ⟨0, 0, 2, 1⟩] he' ha
  exact (hres.2 0 (by norm_num)).1 rfl

end Claims

end Xfdashboard
